import Mathlib

/-!
Verification of the MocPlot 2D plotting engine (TypeScript source, class
`MocPlot` plus the free functions `niceNum`, `calculateTickValues`).

Shallow embedding conventions:
* JavaScript numbers are idealised as exact rationals (`ℚ`) wherever the
  claims speak of results "within floating-point tolerance"; where the
  source genuinely manipulates the IEEE special values `Infinity` and
  `NaN` (the bounds accumulator of `computeBounds`, and the whole
  nice-number ticker on degenerate ranges) we use explicit extended
  number types (`XNum`, `JSNum`) whose operations follow JS semantics.
* The buffers `Map` is embedded as an association list (JS `Map`
  iteration order is insertion order).
* Canvas 2D context calls that produce geometry are reified as a list of
  `DrawCmd` values; pure styling calls (colors, fonts, gradients, save /
  restore) are not part of the observable output.
* DOM, timers and event plumbing are external: each handler is embedded
  as its effect on the plot state, with the event payload as a parameter.
-/

/-- A data point `{x, y}`. -/
structure Pt where
  x : ℚ
  y : ℚ
deriving DecidableEq

/-- One axis range `{min, max}`. -/
structure Rng where
  min : ℚ
  max : ℚ
deriving DecidableEq

/-- The plot bounds rectangle `{x: {min,max}, y: {min,max}}`. -/
structure Bounds where
  x : Rng
  y : Rng
deriving DecidableEq

/-- The forward data→pixel mapping used by `drawBuffer` (source lines
822–827 and every later transform in that function):
`pixelX = (dataX - null.x - bounds.x.min) * scale.x`,
`pixelY = H - (dataY - null.y - bounds.y.min) * scale.y`, with
`scale = (W / rangeX, H / rangeY)`.  (The source guard
`range.x !== Infinity || range.y !== Infinity` always holds for finite
bounds, so `scale` is always the quotient.) -/
def dataToPixel (W H : ℚ) (bounds : Bounds) (nullPosition : Pt) (p : Pt) : Pt :=
  let range : Pt := ⟨bounds.x.max - bounds.x.min, bounds.y.max - bounds.y.min⟩
  let scale : Pt := ⟨W / range.x, H / range.y⟩
  ⟨(p.x - nullPosition.x - bounds.x.min) * scale.x,
   H - (p.y - nullPosition.y - bounds.y.min) * scale.y⟩

/-- Result record of `getMousePlotPosition`. -/
structure MousePlotPos where
  x : ℚ
  y : ℚ
  scaleX : ℚ
  scaleY : ℚ
deriving DecidableEq

/-- `getMousePlotPosition` (source lines 1845–1889): the pixel→data
inverse mapping.  The mouse position relative to the canvas is the
parameter `mouse`; the per-buffer `plotOffsets` record is independent of
the returned coordinates and is omitted here. -/
def getMousePlotPosition (W H : ℚ) (bounds : Bounds) (mouse : Pt) : MousePlotPos :=
  let range : Pt := ⟨bounds.x.max - bounds.x.min, bounds.y.max - bounds.y.min⟩
  let scale : Pt := ⟨W / range.x, H / range.y⟩
  let nullPosition : Pt := ⟨bounds.x.min, bounds.y.min⟩
  { x := nullPosition.x + (mouse.x / W) * range.x
    y := nullPosition.y + (1 - mouse.y / H) * range.y
    scaleX := scale.x
    scaleY := scale.y }

/-- The bounds update performed by `onMouseMove` while `isDragging`
(source lines 1268–1287): pixel delta → data delta
`(-dx * rangeX / W, dy * rangeY / H)`, added to all four bounds fields. -/
def onMouseMove (W H : ℚ) (bounds : Bounds) (delta : Pt) : Bounds :=
  let range : Pt := ⟨bounds.x.max - bounds.x.min, bounds.y.max - bounds.y.min⟩
  let deltaData : Pt := ⟨(-delta.x * range.x) / W, (delta.y * range.y) / H⟩
  ⟨⟨bounds.x.min + deltaData.x, bounds.x.max + deltaData.x⟩,
   ⟨bounds.y.min + deltaData.y, bounds.y.max + deltaData.y⟩⟩

/-- C1.  For every bounds rectangle with nonzero x- and y-range and every
positive canvas width `W` and height `H`, the pixel→data inverse mapping
of `getMousePlotPosition` composed with the data→pixel forward mapping of
`drawBuffer` (null offset zero, as in the claim's formulas) is the
identity on data points. -/
theorem C1_roundTrip (W H : ℚ) (b : Bounds) (p : Pt)
    (hW : 0 < W) (hH : 0 < H)
    (hx : b.x.max - b.x.min ≠ 0) (hy : b.y.max - b.y.min ≠ 0) :
    (getMousePlotPosition W H b (dataToPixel W H b ⟨0, 0⟩ p)).x = p.x ∧
    (getMousePlotPosition W H b (dataToPixel W H b ⟨0, 0⟩ p)).y = p.y := by
  have hW0 : W ≠ 0 := ne_of_gt hW
  have hH0 : H ≠ 0 := ne_of_gt hH
  constructor
  · simp only [getMousePlotPosition, dataToPixel]
    field_simp
    ring
  · simp only [getMousePlotPosition, dataToPixel]
    field_simp
    ring

/-- Witness for C1 at concrete input: bounds x:[1,11], y:[2,7],
canvas 100×50, data point (3, 4). -/
theorem C1_roundTrip_witness :
    (0 : ℚ) < 100 ∧ (0 : ℚ) < 50 ∧
    ((11 : ℚ) - 1 ≠ 0) ∧ ((7 : ℚ) - 2 ≠ 0) ∧
    ((getMousePlotPosition 100 50 ⟨⟨1, 11⟩, ⟨2, 7⟩⟩
        (dataToPixel 100 50 ⟨⟨1, 11⟩, ⟨2, 7⟩⟩ ⟨0, 0⟩ ⟨3, 4⟩)).x = 3 ∧
     (getMousePlotPosition 100 50 ⟨⟨1, 11⟩, ⟨2, 7⟩⟩
        (dataToPixel 100 50 ⟨⟨1, 11⟩, ⟨2, 7⟩⟩ ⟨0, 0⟩ ⟨3, 4⟩)).y = 4) :=
  ⟨by norm_num, by norm_num, by norm_num, by norm_num,
   C1_roundTrip 100 50 ⟨⟨1, 11⟩, ⟨2, 7⟩⟩ ⟨3, 4⟩
     (by norm_num) (by norm_num) (by norm_num) (by norm_num)⟩

/-- C4.  The drag-pan of `onMouseMove` applied with pixel delta `(dx,dy)`
and then with `(-dx,-dy)` restores the original bounds exactly, and each
single pan preserves both axis range widths exactly. -/
theorem C4_panInverse (W H : ℚ) (b : Bounds) (dx dy : ℚ)
    (hW : 0 < W) (hH : 0 < H)
    (hx : b.x.max - b.x.min ≠ 0) (hy : b.y.max - b.y.min ≠ 0) :
    onMouseMove W H (onMouseMove W H b ⟨dx, dy⟩) ⟨-dx, -dy⟩ = b ∧
    ((onMouseMove W H b ⟨dx, dy⟩).x.max - (onMouseMove W H b ⟨dx, dy⟩).x.min
       = b.x.max - b.x.min) ∧
    ((onMouseMove W H b ⟨dx, dy⟩).y.max - (onMouseMove W H b ⟨dx, dy⟩).y.min
       = b.y.max - b.y.min) := by
  obtain ⟨⟨bxmin, bxmax⟩, ⟨bymin, bymax⟩⟩ := b
  refine ⟨?_, by simp [onMouseMove], by simp [onMouseMove]⟩
  simp only [onMouseMove]
  have hW0 : W ≠ 0 := ne_of_gt hW
  have hH0 : H ≠ 0 := ne_of_gt hH
  congr 1
  · congr 1 <;> (field_simp; ring)
  · congr 1 <;> (field_simp; ring)

/-- Witness for C4 at concrete input: bounds x:[0,10], y:[0,5], canvas
200×100, pixel delta (7, -3). -/
theorem C4_panInverse_witness :
    (0 : ℚ) < 200 ∧ (0 : ℚ) < 100 ∧
    ((10 : ℚ) - 0 ≠ 0) ∧ ((5 : ℚ) - 0 ≠ 0) ∧
    onMouseMove 200 100 (onMouseMove 200 100 ⟨⟨0, 10⟩, ⟨0, 5⟩⟩ ⟨7, -3⟩)
      ⟨-7, -(-3)⟩ = ⟨⟨0, 10⟩, ⟨0, 5⟩⟩ :=
  ⟨by norm_num, by norm_num, by norm_num, by norm_num,
   (C4_panInverse 200 100 ⟨⟨0, 10⟩, ⟨0, 5⟩⟩ 7 (-3)
     (by norm_num) (by norm_num) (by norm_num) (by norm_num)).1⟩

/-- `resizeCanvas` (source lines 1199–1238), bounds re-aspect part: the
canvas takes the parent element's size, then whichever axis is too
narrow for the new aspect ratio is re-expanded about the bounds center.
The canvas-dimension assignment itself is external state and not part of
the returned value. -/
def resizeCanvas (parentWidth parentHeight : ℚ) (bounds : Bounds) : Bounds :=
  let range : Pt := ⟨bounds.x.max - bounds.x.min, bounds.y.max - bounds.y.min⟩
  let canvasAspectRatio := parentWidth / parentHeight
  let dataAspectRatio := range.x / range.y
  if canvasAspectRatio > dataAspectRatio then
    let newRange : Pt := ⟨range.y * canvasAspectRatio, range.y⟩
    let center : Pt := ⟨(bounds.x.min + bounds.x.max) / 2,
                        (bounds.y.min + bounds.y.max) / 2⟩
    ⟨⟨center.x - newRange.x / 2, center.x + newRange.x / 2⟩, bounds.y⟩
  else
    let newRange : Pt := ⟨range.x, range.x / canvasAspectRatio⟩
    let center : Pt := ⟨(bounds.x.min + bounds.x.max) / 2,
                        (bounds.y.min + bounds.y.max) / 2⟩
    ⟨bounds.x, ⟨center.y - newRange.y / 2, center.y + newRange.y / 2⟩⟩

/-- `updateBoundsToLatestData` (source lines 254–275) on a plot whose
`bounds` exist.  `latestBounds` stands for the finite value of
`this.computeBounds()` on the current buffers (the follow tick of the
claims runs with data present).  Steps: `x.max := latest.x.max +
jumpOffsetX`; if `fixedWindowSize` is set (and nonzero — JS truthiness),
`x.min := x.max - windowSize`; if `adjustY` is `"auto"`, y bounds are
reset to the fresh range; finally `this.resizeCanvas()` re-aspects. -/
def updateBoundsToLatestData (latestBounds : Bounds) (jumpOffsetX : ℚ)
    (fixedWindowSize : Option ℚ) (adjustYAuto : Bool)
    (parentWidth parentHeight : ℚ) (bounds : Bounds) : Bounds :=
  let b1 : Bounds := ⟨⟨bounds.x.min, latestBounds.x.max + jumpOffsetX⟩, bounds.y⟩
  let b2 : Bounds :=
    match fixedWindowSize with
    | some windowSize =>
        if windowSize = 0 then b1
        else ⟨⟨b1.x.max - windowSize, b1.x.max⟩, b1.y⟩
    | none => b1
  let b3 : Bounds := if adjustYAuto then ⟨b2.x, latestBounds.y⟩ else b2
  resizeCanvas parentWidth parentHeight b3

/-- C5 counterexample.  With `fixedWindowSize = 10`, `jumpOffsetX = 0`
and computed latest x-max 50, a follow tick from bounds x:[0,10],
y:[0,1] on a 100×5 canvas does NOT end with x:[40,50]: the concluding
`resizeCanvas` re-aspect (canvas aspect 20 > data aspect 10) re-expands
the x-range about its center 45, ending with x:[35,55]. -/
theorem C5_followTick_counterexample :
    (updateBoundsToLatestData ⟨⟨0, 50⟩, ⟨0, 1⟩⟩ 0 (some 10) false 100 5
        ⟨⟨0, 10⟩, ⟨0, 1⟩⟩).x ≠ ⟨40, 50⟩ ∧
    updateBoundsToLatestData ⟨⟨0, 50⟩, ⟨0, 1⟩⟩ 0 (some 10) false 100 5
        ⟨⟨0, 10⟩, ⟨0, 1⟩⟩ = ⟨⟨35, 55⟩, ⟨0, 1⟩⟩ := by
  constructor
  · intro h
    have := congrArg Rng.min h
    norm_num [updateBoundsToLatestData, resizeCanvas] at this
  · norm_num [updateBoundsToLatestData, resizeCanvas]

/-- C5 (amended).  With `fixedWindowSize = 10`, `jumpOffsetX = 0` and
computed latest x-max 50, one follow tick sets `x.max = 50` and
`x.min = 40`, and these survive the concluding `resizeCanvas` re-aspect
whenever the canvas aspect ratio `W/H` does not exceed the resulting
data aspect ratio `10 / yRange` (otherwise the x-range is re-expanded
about its center). -/
theorem C5_followTick (b latest : Bounds) (W H : ℚ)
    (hW : 0 < W) (hH : 0 < H)
    (hlatest : latest.x.max = 50)
    (hyr : 0 < b.y.max - b.y.min)
    (haspect : W / H ≤ 10 / (b.y.max - b.y.min)) :
    (updateBoundsToLatestData latest 0 (some 10) false W H b).x.min = 40 ∧
    (updateBoundsToLatestData latest 0 (some 10) false W H b).x.max = 50 := by
  simp only [updateBoundsToLatestData, resizeCanvas, hlatest]
  norm_num
  split_ifs with h
  · exfalso
    norm_num at h
    exact absurd haspect (not_le.mpr h)
  · constructor <;> norm_num

/-- Witness for C5 (amended) at concrete input: bounds x:[0,10], y:[0,5],
latest x-max 50, canvas 100×50 (aspect 2 ≤ 10/5). -/
theorem C5_followTick_witness :
    (0 : ℚ) < 100 ∧ (0 : ℚ) < 50 ∧
    (Bounds.mk ⟨0, 50⟩ ⟨0, 5⟩).x.max = 50 ∧
    (0 : ℚ) < (5 : ℚ) - 0 ∧ (100 : ℚ) / 50 ≤ 10 / ((5 : ℚ) - 0) ∧
    ((updateBoundsToLatestData ⟨⟨0, 50⟩, ⟨0, 5⟩⟩ 0 (some 10) false 100 50
        ⟨⟨0, 10⟩, ⟨0, 5⟩⟩).x.min = 40 ∧
     (updateBoundsToLatestData ⟨⟨0, 50⟩, ⟨0, 5⟩⟩ 0 (some 10) false 100 50
        ⟨⟨0, 10⟩, ⟨0, 5⟩⟩).x.max = 50) :=
  ⟨by norm_num, by norm_num, rfl, by norm_num, by norm_num,
   C5_followTick ⟨⟨0, 10⟩, ⟨0, 5⟩⟩ ⟨⟨0, 50⟩, ⟨0, 5⟩⟩ 100 50
     (by norm_num) (by norm_num) rfl (by norm_num) (by norm_num)⟩

/-- A sampled-function entry of `buffer.lines` (`interfaces/Buffer.ts`,
`BufferLine`): `func`, optional `stepScalar`; styling omitted. -/
structure BufferLine where
  func : ℚ → ℚ
  stepScalar : Option ℚ

/-- A discrete overlay marker of `buffer.points` (`BufferPoint`):
position, optional size and label, optional label offset components. -/
structure BufferPointMark where
  x : ℚ
  y : ℚ
  size : Option ℚ
  label : Option String
  labelOffsetX : Option ℚ
  labelOffsetY : Option ℚ

/-- A parametric curve of `buffer.parametrics`
(`BufferParametricFunction`): `func`, optional t-domain and step count. -/
structure ParametricDef where
  func : ℚ → Pt
  tMin : Option ℚ
  tMax : Option ℚ
  steps : Option ℚ

/-- The `type` field of a buffer. -/
inductive BufType where
  | line
  | scatter
  | bar
  | area
deriving DecidableEq

/-- A series record (`interfaces/Buffer.ts`, fields the core reads;
styling colours and secondary-axis styling omitted).  An absent `data`
array is represented by `[]` (the source treats both identically in
every guard it reads). -/
structure Buffer where
  data : List Pt
  type : Option BufType
  visible : Option Bool
  null : Option Pt
  maxDataLength : Option ℕ
  lines : Option (List BufferLine)
  points : Option (List BufferPointMark)
  parametrics : Option (List ParametricDef)
  pointSize : Option ℚ
  barWidthFactor : Option ℚ
  barGap : Option ℚ

/-- The recurring eviction tick established by `setBufferDiscardOptions`
(source lines 1178–1187), acting on one buffer: if `maxDataLength` is
set (and nonzero — `!buffer.maxDataLength` is JS truthiness) and the
sample count exceeds it, replace `data` by
`data.slice(data.length - maxDataLength)`; otherwise do nothing. -/
def discardTick (buffer : Buffer) : Buffer :=
  match buffer.maxDataLength with
  | none => buffer
  | some maxLen =>
      if maxLen = 0 then buffer
      else if maxLen < buffer.data.length then
        { buffer with data := buffer.data.drop (buffer.data.length - maxLen) }
      else buffer

/-- C6.  A buffer with `maxDataLength = N` (N positive) holding more than
N samples is truncated by one retention tick to exactly its newest N
samples — the final segment of `data`, dropped from the front, in
unchanged relative order — and a buffer without `maxDataLength` is never
discarded from. -/
theorem C6_retention :
    (∀ (buffer : Buffer) (maxLen : ℕ),
        buffer.maxDataLength = some maxLen → 0 < maxLen →
        maxLen < buffer.data.length →
        (discardTick buffer).data
            = buffer.data.drop (buffer.data.length - maxLen) ∧
        (discardTick buffer).data.length = maxLen ∧
        (discardTick buffer).data <:+ buffer.data) ∧
    (∀ buffer : Buffer, buffer.maxDataLength = none →
        discardTick buffer = buffer) := by
  constructor
  · intro buffer maxLen hset hpos hlong
    have hne : maxLen ≠ 0 := by omega
    simp only [discardTick, hset]
    rw [if_neg hne, if_pos hlong]
    refine ⟨rfl, ?_, ?_⟩
    · simp only [List.length_drop]
      omega
    · exact List.drop_suffix _ _
  · intro buffer hnone
    simp only [discardTick, hnone]

/-- Witness for C6 at concrete input: `maxDataLength = 2`, three samples;
the tick keeps the newest two in order. -/
theorem C6_retention_witness :
    (Buffer.mk [⟨1, 1⟩, ⟨2, 2⟩, ⟨3, 3⟩] none none none (some 2) none none
        none none none none).maxDataLength = some 2 ∧
    0 < 2 ∧ 2 < 3 ∧
    (discardTick (Buffer.mk [⟨1, 1⟩, ⟨2, 2⟩, ⟨3, 3⟩] none none none (some 2)
        none none none none none none)).data = [⟨2, 2⟩, ⟨3, 3⟩] :=
  ⟨rfl, by norm_num, by norm_num,
   by
    have h := (C6_retention.1
      (Buffer.mk [⟨1, 1⟩, ⟨2, 2⟩, ⟨3, 3⟩] none none none (some 2) none none
        none none none none) 2 rfl (by norm_num) (by norm_num)).1
    simpa using h⟩

/-- Observable callback events of the follow controller. -/
inductive FollowEvent where
  | startFired
  | stopFired
deriving DecidableEq

/-- Follow-controller state: `following` is `followTimer !== null`
(Following vs Idle); `events` is the trace of synchronous callback
invocations so far. -/
structure FollowState where
  following : Bool
  events : List FollowEvent
deriving DecidableEq

/-- `startFollowingLatest` (source lines 215–235): any existing timer is
cleared, a fresh interval is installed (state becomes Following), and
then the registered start callback — if any — is invoked
unconditionally. -/
def startFollowingLatest (hasStartCallback : Bool) (s : FollowState) : FollowState :=
  let s1 : FollowState := { s with following := true }
  if hasStartCallback then { s1 with events := s1.events ++ [.startFired] } else s1

/-- `stopFollowingLatest` (source lines 240–249): the timer is cleared if
present (state becomes Idle), and then the registered stop callback — if
any — is invoked unconditionally. -/
def stopFollowingLatest (hasStopCallback : Bool) (s : FollowState) : FollowState :=
  let s1 : FollowState := { s with following := false }
  if hasStopCallback then { s1 with events := s1.events ++ [.stopFired] } else s1

/-- C8 counterexample.  Calling `startFollowingLatest` with a registered
start callback while the controller is ALREADY Following fires the
callback even though no Idle→Following transition occurs (the state was
and stays Following) — so callbacks do not fire "only when the
controller actually transitions".  Likewise `stopFollowingLatest` while
Idle fires the stop callback. -/
theorem C8_callbacks_counterexample :
    (startFollowingLatest true ⟨true, []⟩).following = true ∧
    (⟨true, []⟩ : FollowState).following = true ∧
    (startFollowingLatest true ⟨true, []⟩).events = [.startFired] ∧
    (stopFollowingLatest true ⟨false, []⟩).following = false ∧
    (⟨false, []⟩ : FollowState).following = false ∧
    (stopFollowingLatest true ⟨false, []⟩).events = [.stopFired] := by
  refine ⟨rfl, rfl, rfl, rfl, rfl, rfl⟩

/-- C8 (amended).  Each registered follow callback fires synchronously,
exactly once per INVOCATION of `startFollowingLatest` /
`stopFollowingLatest` — including redundant invocations that cause no
Idle/Following transition; after a start call the controller is always
Following, after a stop call always Idle. -/
theorem C8_callbacks (cb : Bool) (s : FollowState) :
    (startFollowingLatest cb s).following = true ∧
    (startFollowingLatest cb s).events
        = s.events ++ (if cb then [.startFired] else []) ∧
    (stopFollowingLatest cb s).following = false ∧
    (stopFollowingLatest cb s).events
        = s.events ++ (if cb then [.stopFired] else []) := by
  cases cb <;> simp [startFollowingLatest, stopFollowingLatest]

/-- `this.buffers.set(key, value)` on an existing key: JS `Map.set`
replaces the value in place, preserving iteration order. -/
def mapSet (buffers : List (String × Buffer)) (key : String) (value : Buffer) :
    List (String × Buffer) :=
  buffers.map (fun e => if e.1 = key then (key, value) else e)

/-- `updateBuffer` (source lines 1103–1130).  The partial-record /
update-function argument is modeled as a function `patch` producing the
merged record `{...originalBuffer, ...buffer}`.  On an unknown key the
source logs `console.error` and returns without touching the map; the
returned `Bool` is true iff that diagnostic was emitted.  (The follow-up
re-arming of discard timers for a patch carrying `discardOptions`, and
the auto-mode redraw, are timer/render effects outside this state.) -/
def updateBuffer (buffers : List (String × Buffer)) (key : String)
    (patch : Buffer → Buffer) : List (String × Buffer) × Bool :=
  match List.lookup key buffers with
  | none => (buffers, true)
  | some originalBuffer => (mapSet buffers key (patch originalBuffer), false)

/-- `focusOnPoint` (source lines 1518–1583) on a plot whose `bounds`
exist.  Unknown or empty buffer key, or an out-of-range point index,
logs `console.warn` and leaves bounds unchanged (`Bool` result true iff
a diagnostic was emitted); otherwise bounds are recentered on the
null-adjusted target point with the current range scaled by
`zoomFactor`. -/
def focusOnPoint (buffers : List (String × Buffer)) (bounds : Bounds)
    (bufferKey : String) (pointIndex : ℤ) (zoomFactor : Option ℚ) :
    Bounds × Bool :=
  match List.lookup bufferKey buffers with
  | none => (bounds, true)
  | some buffer =>
      if buffer.data = [] then (bounds, true)
      else
        let data := buffer.data
        let targetIndex : ℤ :=
          if pointIndex = -1 then (data.length : ℤ) - 1 else pointIndex
        if targetIndex < 0 ∨ (data.length : ℤ) ≤ targetIndex then (bounds, true)
        else
          let targetPoint := data.getD targetIndex.toNat ⟨0, 0⟩
          let nullPosition : Pt := (buffer.null).getD ⟨0, 0⟩
          let focusPoint : Pt := ⟨targetPoint.x - nullPosition.x,
                                  targetPoint.y - nullPosition.y⟩
          let range : Pt := ⟨bounds.x.max - bounds.x.min,
                             bounds.y.max - bounds.y.min⟩
          let zf := zoomFactor.getD 1
          let newRange : Pt := ⟨range.x * zf, range.y * zf⟩
          (⟨⟨focusPoint.x - newRange.x / 2, focusPoint.x + newRange.x / 2⟩,
            ⟨focusPoint.y - newRange.y / 2, focusPoint.y + newRange.y / 2⟩⟩,
           false)

/-- `setRenderMode` (source lines 1827–1835): a mode string other than
`"auto"` / `"manual"` logs `console.error` and leaves the mode
unchanged. -/
def setRenderMode (mode : String) (current : String) : String × Bool :=
  if mode ≠ "auto" ∧ mode ≠ "manual" then (current, true) else (mode, false)

/-- C9.  Every usage error — `updateBuffer` on an unknown key,
`focusOnPoint` on an unknown or empty key or an out-of-range index,
`setRenderMode` on an invalid mode string — emits a diagnostic and is a
no-op on the buffers map, the bounds rectangle, and the render mode (the
embedded operations are total, so no exception propagates). -/
theorem C9_usageErrors :
    (∀ (buffers : List (String × Buffer)) (key : String)
        (patch : Buffer → Buffer),
        List.lookup key buffers = none →
        updateBuffer buffers key patch = (buffers, true)) ∧
    (∀ (buffers : List (String × Buffer)) (bounds : Bounds) (key : String)
        (i : ℤ) (z : Option ℚ),
        List.lookup key buffers = none →
        focusOnPoint buffers bounds key i z = (bounds, true)) ∧
    (∀ (buffers : List (String × Buffer)) (bounds : Bounds) (key : String)
        (buffer : Buffer) (i : ℤ) (z : Option ℚ),
        List.lookup key buffers = some buffer → buffer.data = [] →
        focusOnPoint buffers bounds key i z = (bounds, true)) ∧
    (∀ (buffers : List (String × Buffer)) (bounds : Bounds) (key : String)
        (buffer : Buffer) (i : ℤ) (z : Option ℚ),
        List.lookup key buffers = some buffer →
        ((if i = -1 then (buffer.data.length : ℤ) - 1 else i) < 0 ∨
          (buffer.data.length : ℤ)
            ≤ (if i = -1 then (buffer.data.length : ℤ) - 1 else i)) →
        focusOnPoint buffers bounds key i z = (bounds, true)) ∧
    (∀ (mode current : String), mode ≠ "auto" → mode ≠ "manual" →
        setRenderMode mode current = (current, true)) := by
  refine ⟨?_, ?_, ?_, ?_, ?_⟩
  · intro buffers key patch hmiss
    simp only [updateBuffer, hmiss]
  · intro buffers bounds key i z hmiss
    simp only [focusOnPoint, hmiss]
  · intro buffers bounds key buffer i z hfound hempty
    simp only [focusOnPoint, hfound, hempty, if_pos]
  · intro buffers bounds key buffer i z hfound hrange
    simp only [focusOnPoint, hfound]
    by_cases hempty : buffer.data = []
    · rw [if_pos hempty]
    · rw [if_neg hempty, if_pos hrange]
  · intro mode current h1 h2
    simp only [setRenderMode, h1, h2]
    rw [if_pos ⟨h1, h2⟩]

/-- Witness for C9 at concrete inputs: unknown key `"k"` on an empty
buffers map for update and focus; invalid mode string `"bogus"`. -/
theorem C9_usageErrors_witness :
    (List.lookup "k" ([] : List (String × Buffer)) = none) ∧
    updateBuffer [] "k" id = ([], true) ∧
    focusOnPoint [] ⟨⟨0, 1⟩, ⟨0, 1⟩⟩ "k" 0 none = (⟨⟨0, 1⟩, ⟨0, 1⟩⟩, true) ∧
    ("bogus" ≠ "auto") ∧ ("bogus" ≠ "manual") ∧
    setRenderMode "bogus" "auto" = ("auto", true) :=
  ⟨rfl,
   C9_usageErrors.1 [] "k" id rfl,
   C9_usageErrors.2.1 [] ⟨⟨0, 1⟩, ⟨0, 1⟩⟩ "k" 0 none rfl,
   by decide, by decide,
   C9_usageErrors.2.2.2.2 "bogus" "auto" (by decide) (by decide)⟩

/-- A JS number that is finite, `Infinity`, or `-Infinity` (`NaN` cannot
arise in `computeBounds`, whose arithmetic is on finite samples). -/
inductive XNum where
  | negInf
  | fin (q : ℚ)
  | posInf
deriving DecidableEq

/-- The JS `<` comparison on `XNum`. -/
def XNum.ltb : XNum → XNum → Bool
  | .negInf, .negInf => false
  | .negInf, .fin _ => true
  | .negInf, .posInf => true
  | .fin _, .negInf => false
  | .fin a, .fin b => decide (a < b)
  | .fin _, .posInf => true
  | .posInf, _ => false

/-- `if (v < acc) acc = v` — the running-minimum update of
`computeBounds`. -/
def updMin (acc v : XNum) : XNum := if XNum.ltb v acc then v else acc

/-- `if (v > acc) acc = v` — the running-maximum update of
`computeBounds` (`v > acc` is `acc < v`). -/
def updMax (acc v : XNum) : XNum := if XNum.ltb acc v then v else acc

/-- `Math.min(...values)`: smallest element, `Infinity` on an empty
spread. -/
def jsMin (values : List ℚ) : XNum :=
  values.foldl (fun acc q => updMin acc (XNum.fin q)) XNum.posInf

/-- `Math.max(...values)`: largest element, `-Infinity` on an empty
spread. -/
def jsMax (values : List ℚ) : XNum :=
  values.foldl (fun acc q => updMax acc (XNum.fin q)) XNum.negInf

/-- The result rectangle of `computeBounds`. -/
structure XBounds where
  xMin : XNum
  xMax : XNum
  yMin : XNum
  yMax : XNum
deriving DecidableEq

/-- The `continue` guard of the `computeBounds` loop (source lines
291–297): skip a buffer whose data is empty/absent, whose own `visible`
is `false`, or whose key is hidden via `options.localBufferOption`. -/
def skippedBuffer (localVisible : String → Option Bool)
    (e : String × Buffer) : Bool :=
  e.2.data.isEmpty || (e.2.visible == some false)
    || (localVisible e.1 == some false)

/-- One iteration of the `computeBounds` loop body (source lines
289–318). -/
def cbStep (localVisible : String → Option Bool) (acc : XBounds)
    (e : String × Buffer) : XBounds :=
  if skippedBuffer localVisible e then acc
  else
    let buffer := e.2
    let xNull := ((buffer.null).getD ⟨0, 0⟩).x
    let yNull := ((buffer.null).getD ⟨0, 0⟩).y
    let xValues := buffer.data.map (fun point => point.x - xNull)
    let yValues := buffer.data.map (fun point => point.y - yNull)
    let bufferXMin := jsMin xValues
    let bufferXMax := jsMax xValues
    let bufferYMin := jsMin yValues
    let bufferYMax := jsMax yValues
    { xMin := updMin acc.xMin bufferXMin
      xMax := updMax acc.xMax bufferXMax
      yMin := updMin acc.yMin bufferYMin
      yMax := updMax acc.yMax bufferYMax }

/-- `computeBounds` (source lines 280–331): fold the loop body over the
buffers map (insertion order), starting from
`(Infinity, -Infinity, Infinity, -Infinity)`. -/
def computeBounds (buffers : List (String × Buffer))
    (localVisible : String → Option Bool) : XBounds :=
  buffers.foldl (cbStep localVisible)
    ⟨XNum.posInf, XNum.negInf, XNum.posInf, XNum.negInf⟩

/-- Binary JS minimum on `XNum` (`if (a < b) a else b`). -/
def mnX (a b : XNum) : XNum := if XNum.ltb a b then a else b

/-- Binary JS maximum on `XNum` (`if (a < b) b else a`). -/
def mxX (a b : XNum) : XNum := if XNum.ltb a b then b else a

/-- Pointwise union of two bound rectangles: min of mins, max of maxes. -/
def xbUnion (p q : XBounds) : XBounds :=
  ⟨mnX p.xMin q.xMin, mxX p.xMax q.xMax, mnX p.yMin q.yMin, mxX p.yMax q.yMax⟩

lemma mnX_fin (a b : ℚ) : mnX (.fin a) (.fin b) = .fin (min a b) := by
  simp only [mnX, XNum.ltb, decide_eq_true_eq]
  split_ifs with h
  · rw [min_eq_left h.le]
  · rw [min_eq_right (not_lt.mp h)]

lemma mxX_fin (a b : ℚ) : mxX (.fin a) (.fin b) = .fin (max a b) := by
  simp only [mxX, XNum.ltb, decide_eq_true_eq]
  split_ifs with h
  · rw [max_eq_right h.le]
  · rw [max_eq_left (not_lt.mp h)]

lemma mnX_posInf_left (a : XNum) : mnX .posInf a = a := by cases a <;> rfl

lemma mnX_posInf_right (a : XNum) : mnX a .posInf = a := by cases a <;> rfl

lemma mnX_negInf_left (a : XNum) : mnX .negInf a = .negInf := by cases a <;> rfl

lemma mnX_negInf_right (a : XNum) : mnX a .negInf = .negInf := by cases a <;> rfl

lemma mxX_negInf_left (a : XNum) : mxX .negInf a = a := by cases a <;> rfl

lemma mxX_negInf_right (a : XNum) : mxX a .negInf = a := by cases a <;> rfl

lemma mxX_posInf_left (a : XNum) : mxX .posInf a = .posInf := by cases a <;> rfl

lemma mxX_posInf_right (a : XNum) : mxX a .posInf = .posInf := by cases a <;> rfl

lemma mnX_comm (a b : XNum) : mnX a b = mnX b a := by
  cases a <;> cases b <;> first | rfl | rw [mnX_fin, mnX_fin, min_comm]

lemma mxX_comm (a b : XNum) : mxX a b = mxX b a := by
  cases a <;> cases b <;> first | rfl | rw [mxX_fin, mxX_fin, max_comm]

lemma mnX_assoc (a b c : XNum) : mnX (mnX a b) c = mnX a (mnX b c) := by
  cases a <;> cases b <;> cases c <;>
    simp [mnX_posInf_left, mnX_posInf_right, mnX_negInf_left,
      mnX_negInf_right, mnX_fin, min_assoc]

lemma mxX_assoc (a b c : XNum) : mxX (mxX a b) c = mxX a (mxX b c) := by
  cases a <;> cases b <;> cases c <;>
    simp [mxX_negInf_left, mxX_negInf_right, mxX_posInf_left,
      mxX_posInf_right, mxX_fin, max_assoc]

lemma mnX_left_comm (v p q : XNum) : mnX v (mnX p q) = mnX p (mnX v q) := by
  rw [← mnX_assoc, mnX_comm v p, mnX_assoc]

lemma updMin_eq (acc v : XNum) : updMin acc v = mnX v acc := rfl

lemma updMax_eq (acc v : XNum) : updMax acc v = mxX acc v := rfl

lemma updMin_posInf (v : XNum) : updMin .posInf v = v := by cases v <;> rfl

lemma updMax_negInf (v : XNum) : updMax .negInf v = v := by cases v <;> rfl

/-- The neutral accumulator of `computeBounds`. -/
def xbInit : XBounds := ⟨.posInf, .negInf, .posInf, .negInf⟩

lemma xbUnion_init_left (p : XBounds) : xbUnion xbInit p = p := by
  simp [xbUnion, xbInit, mnX_posInf_left, mxX_negInf_left]

lemma xbUnion_init_right (p : XBounds) : xbUnion p xbInit = p := by
  simp [xbUnion, xbInit, mnX_posInf_right, mxX_negInf_right]

lemma xbUnion_assoc (p q r : XBounds) :
    xbUnion (xbUnion p q) r = xbUnion p (xbUnion q r) := by
  simp [xbUnion, mnX_assoc, mxX_assoc]

lemma cbStep_union (lv : String → Option Bool) (p q : XBounds)
    (e : String × Buffer) :
    cbStep lv (xbUnion p q) e = xbUnion p (cbStep lv q e) := by
  by_cases h : skippedBuffer lv e
  · simp [cbStep, h]
  · simp only [cbStep, h, Bool.false_eq_true, if_false]
    simp only [xbUnion, updMin_eq, updMax_eq]
    exact congrArg₂ (fun u v => XBounds.mk u v _ _)
      (mnX_left_comm _ _ _) (mxX_assoc _ _ _) |>.trans
      (congrArg₂ (fun u v => XBounds.mk _ _ u v)
        (mnX_left_comm _ _ _) (mxX_assoc _ _ _))

lemma cbStep_split (lv : String → Option Bool) (p : XBounds)
    (e : String × Buffer) :
    cbStep lv p e = xbUnion p (cbStep lv xbInit e) := by
  have h := cbStep_union lv p xbInit e
  rwa [xbUnion_init_right] at h

lemma foldl_cbStep_union (lv : String → Option Bool) :
    ∀ (bs : List (String × Buffer)) (p : XBounds),
      bs.foldl (cbStep lv) p = xbUnion p (computeBounds bs lv) := by
  intro bs
  induction bs with
  | nil =>
      intro p
      simp only [List.foldl]
      exact (xbUnion_init_right p).symm
  | cons e t ih =>
      intro p
      have step1 : (e :: t).foldl (cbStep lv) p = t.foldl (cbStep lv) (cbStep lv p e) := rfl
      have step2 : computeBounds (e :: t) lv
          = t.foldl (cbStep lv) (cbStep lv xbInit e) := rfl
      rw [step1, step2, ih (cbStep lv p e), ih (cbStep lv xbInit e),
        cbStep_split lv p e, xbUnion_assoc]

lemma foldl_cbStep_filter (lv : String → Option Bool) :
    ∀ (bs : List (String × Buffer)) (acc : XBounds),
      bs.foldl (cbStep lv) acc
        = (bs.filter (fun e => !skippedBuffer lv e)).foldl (cbStep lv) acc := by
  intro bs
  induction bs with
  | nil => intro acc; rfl
  | cons e t ih =>
      intro acc
      by_cases h : skippedBuffer lv e
      · have hdrop : cbStep lv acc e = acc := by simp [cbStep, h]
        rw [List.foldl_cons, hdrop,
          List.filter_cons_of_neg (by simp [h]), ih]
      · rw [List.foldl_cons, List.filter_cons_of_pos (by simp [h]),
          List.foldl_cons]
        exact ih (cbStep lv acc e)

/-- The hidden demo series of the claim: `visible: false`, with data that
must be ignored. -/
def hiddenBuffer : Buffer :=
  ⟨[⟨-100, -100⟩], none, some false, none, none, none, none, none,
   none, none, none⟩

/-- The visible demo series of the claim: data `[{x:0,y:0},{x:10,y:5}]`,
no null offset. -/
def shownBuffer : Buffer :=
  ⟨[⟨0, 0⟩, ⟨10, 5⟩], none, none, none, none, none, none, none,
   none, none, none⟩

/-- C2.  `computeBounds` (i) is unchanged by deleting the skipped buffers
(empty data, own `visible` false, or key hidden via
`options.localBufferOption`); (ii) reduces to the pointwise union (min
of mins, max of maxes) across any split of the buffer list; (iii) on a
single eligible buffer yields exactly the min/max of its null-offset-
subtracted samples; (iv) on the claim's two-buffer example (one hidden,
one with data [{0,0},{10,5}]) yields exactly
{x:{0,10}, y:{0,5}}; and (v) with no eligible buffer yields
{min:+∞, max:−∞} on both axes. -/
theorem C2_computeBounds :
    (∀ (bs : List (String × Buffer)) (lv : String → Option Bool),
        computeBounds bs lv
          = computeBounds (bs.filter (fun e => !skippedBuffer lv e)) lv) ∧
    (∀ (bs1 bs2 : List (String × Buffer)) (lv : String → Option Bool),
        computeBounds (bs1 ++ bs2) lv
          = xbUnion (computeBounds bs1 lv) (computeBounds bs2 lv)) ∧
    (∀ (e : String × Buffer) (lv : String → Option Bool),
        skippedBuffer lv e = false →
        computeBounds [e] lv =
          ⟨jsMin (e.2.data.map (fun point => point.x - ((e.2.null).getD ⟨0, 0⟩).x)),
           jsMax (e.2.data.map (fun point => point.x - ((e.2.null).getD ⟨0, 0⟩).x)),
           jsMin (e.2.data.map (fun point => point.y - ((e.2.null).getD ⟨0, 0⟩).y)),
           jsMax (e.2.data.map (fun point => point.y - ((e.2.null).getD ⟨0, 0⟩).y))⟩) ∧
    (computeBounds [("hidden", hiddenBuffer), ("shown", shownBuffer)]
        (fun _ => none)
      = ⟨.fin 0, .fin 10, .fin 0, .fin 5⟩) ∧
    (∀ (bs : List (String × Buffer)) (lv : String → Option Bool),
        (∀ e ∈ bs, skippedBuffer lv e = true) →
        computeBounds bs lv = ⟨.posInf, .negInf, .posInf, .negInf⟩) := by
  refine ⟨?_, ?_, ?_, ?_, ?_⟩
  · intro bs lv
    exact foldl_cbStep_filter lv bs xbInit
  · intro bs1 bs2 lv
    show (bs1 ++ bs2).foldl (cbStep lv) xbInit = _
    rw [List.foldl_append]
    exact foldl_cbStep_union lv bs2 (computeBounds bs1 lv)
  · intro e lv h
    show cbStep lv xbInit e = _
    simp only [cbStep, h, Bool.false_eq_true, if_false, xbInit,
      updMin_posInf, updMax_negInf]
  · norm_num [computeBounds, cbStep, skippedBuffer, hiddenBuffer,
      shownBuffer, jsMin, jsMax, updMin, updMax, XNum.ltb, xbInit]
  · intro bs lv h
    induction bs with
    | nil => rfl
    | cons e t ih =>
        have he : skippedBuffer lv e = true := h e (by simp)
        have hdrop : cbStep lv xbInit e = xbInit := by simp [cbStep, he]
        show t.foldl (cbStep lv) (cbStep lv xbInit e) = _
        rw [hdrop]
        exact ih (fun x hx => h x (by simp [hx]))

/-- Witness for C2 at concrete inputs: the single-eligible-buffer case on
the shown demo series, and the no-eligible-buffer case on a list holding
only the hidden demo series. -/
theorem C2_computeBounds_witness :
    (skippedBuffer (fun _ => none) ("shown", shownBuffer) = false) ∧
    computeBounds [("shown", shownBuffer)] (fun _ => none)
      = ⟨jsMin [0 - 0, 10 - 0], jsMax [0 - 0, 10 - 0],
         jsMin [0 - 0, 5 - 0], jsMax [0 - 0, 5 - 0]⟩ ∧
    (∀ e ∈ [("hidden", hiddenBuffer)],
        skippedBuffer (fun _ => none) e = true) ∧
    computeBounds [("hidden", hiddenBuffer)] (fun _ => none)
      = ⟨.posInf, .negInf, .posInf, .negInf⟩ :=
  ⟨by norm_num [skippedBuffer, shownBuffer],
   C2_computeBounds.2.2.1 ("shown", shownBuffer) (fun _ => none)
     (by norm_num [skippedBuffer, shownBuffer]),
   by
    intro e he
    rw [List.mem_singleton] at he
    subst he
    norm_num [skippedBuffer, hiddenBuffer],
   C2_computeBounds.2.2.2.2 [("hidden", hiddenBuffer)] (fun _ => none)
     (by
      intro e he
      rw [List.mem_singleton] at he
      subst he
      norm_num [skippedBuffer, hiddenBuffer])⟩

/-- A JS number for the nice-number ticker: finite (exact rational),
`Infinity`, `-Infinity`, or `NaN`. -/
inductive JSNum where
  | nan
  | negInf
  | fin (q : ℚ)
  | posInf
deriving DecidableEq

/-- JS subtraction. -/
def jsSub : JSNum → JSNum → JSNum
  | .nan, _ => .nan
  | _, .nan => .nan
  | .fin a, .fin b => .fin (a - b)
  | .posInf, .posInf => .nan
  | .posInf, _ => .posInf
  | .negInf, .negInf => .nan
  | .negInf, _ => .negInf
  | .fin _, .posInf => .negInf
  | .fin _, .negInf => .posInf

/-- JS addition. -/
def jsAdd : JSNum → JSNum → JSNum
  | .nan, _ => .nan
  | _, .nan => .nan
  | .fin a, .fin b => .fin (a + b)
  | .posInf, .negInf => .nan
  | .negInf, .posInf => .nan
  | .posInf, _ => .posInf
  | .negInf, _ => .negInf
  | .fin _, .posInf => .posInf
  | .fin _, .negInf => .negInf

/-- JS multiplication (`Infinity * 0 = NaN`). -/
def jsMul : JSNum → JSNum → JSNum
  | .nan, _ => .nan
  | _, .nan => .nan
  | .fin a, .fin b => .fin (a * b)
  | .posInf, .posInf => .posInf
  | .posInf, .negInf => .negInf
  | .negInf, .posInf => .negInf
  | .negInf, .negInf => .posInf
  | .posInf, .fin b => if b = 0 then .nan else if 0 < b then .posInf else .negInf
  | .negInf, .fin b => if b = 0 then .nan else if 0 < b then .negInf else .posInf
  | .fin a, .posInf => if a = 0 then .nan else if 0 < a then .posInf else .negInf
  | .fin a, .negInf => if a = 0 then .nan else if 0 < a then .negInf else .posInf

/-- JS division (`a/0` is `±Infinity` for `a ≠ 0` and `NaN` for `a = 0`;
negative zero is not modeled — the zero divisors arising in the ticker
are `+0`). -/
def jsDiv : JSNum → JSNum → JSNum
  | .nan, _ => .nan
  | _, .nan => .nan
  | .fin a, .fin b =>
      if b = 0 then (if a = 0 then .nan else if 0 < a then .posInf else .negInf)
      else .fin (a / b)
  | .posInf, .posInf => .nan
  | .posInf, .negInf => .nan
  | .negInf, .posInf => .nan
  | .negInf, .negInf => .nan
  | .posInf, .fin b => if 0 ≤ b then .posInf else .negInf
  | .negInf, .fin b => if 0 ≤ b then .negInf else .posInf
  | .fin _, .posInf => .fin 0
  | .fin _, .negInf => .fin 0

/-- `Math.floor`. -/
def jsFloor : JSNum → JSNum
  | .fin q => .fin (⌊q⌋ : ℚ)
  | .posInf => .posInf
  | .negInf => .negInf
  | .nan => .nan

/-- `Math.ceil`. -/
def jsCeil : JSNum → JSNum
  | .fin q => .fin (⌈q⌉ : ℚ)
  | .posInf => .posInf
  | .negInf => .negInf
  | .nan => .nan

/-- JS `<` (false on any `NaN` operand). -/
def jsLtb : JSNum → JSNum → Bool
  | .nan, _ => false
  | _, .nan => false
  | .fin a, .fin b => decide (a < b)
  | .negInf, .negInf => false
  | .negInf, _ => true
  | _, .negInf => false
  | .posInf, _ => false
  | .fin _, .posInf => true

/-- JS `<=` (false on any `NaN` operand). -/
def jsLeb : JSNum → JSNum → Bool
  | .nan, _ => false
  | _, .nan => false
  | .fin a, .fin b => decide (a ≤ b)
  | .negInf, _ => true
  | _, .negInf => false
  | _, .posInf => true
  | .posInf, .fin _ => false

/-- `Math.floor(Math.log10 x)`, fused: for a positive rational this is
exactly `Int.log 10 x` (the unique `e` with `10^e ≤ x < 10^(e+1)`);
`log10(0) = -Infinity` (whose floor is `-Infinity`), `log10` of a
negative number is `NaN`, `log10(Infinity) = Infinity`.  The fusion is
the one idealisation: `Math.log10` alone is irrational-valued. -/
def jsFloorLog10 : JSNum → JSNum
  | .fin q =>
      if 0 < q then .fin ((Int.log 10 q : ℤ) : ℚ)
      else if q = 0 then .negInf
      else .nan
  | .posInf => .posInf
  | .negInf => .nan
  | .nan => .nan

/-- `Math.pow(10, e)` for the exponent produced by `Math.floor` (always
an integer when finite, so the finite case reads the integer part):
`10^-Infinity = 0`, `10^Infinity = Infinity`, `10^NaN = NaN`. -/
def jsPow10 : JSNum → JSNum
  | .fin q => .fin ((10 : ℚ) ^ ⌊q⌋)
  | .posInf => .posInf
  | .negInf => .fin 0
  | .nan => .nan

/-- `niceNum` (source lines 1892–1920): `exponent =
floor(log10 range)`, `fraction = range / 10^exponent`, snap the fraction
to {1,2,5,10} (nearest thresholds when `round`, ceiling-style
otherwise — every comparison is false on a NaN fraction, selecting 10),
and rescale. -/
def niceNum (range : JSNum) (round : Bool) : JSNum :=
  let exponent := jsFloorLog10 range
  let fraction := jsDiv range (jsPow10 exponent)
  let niceFraction : JSNum :=
    if round then
      if jsLtb fraction (.fin (3 / 2)) then .fin 1
      else if jsLtb fraction (.fin 3) then .fin 2
      else if jsLtb fraction (.fin 7) then .fin 5
      else .fin 10
    else
      if jsLeb fraction (.fin 1) then .fin 1
      else if jsLeb fraction (.fin 2) then .fin 2
      else if jsLeb fraction (.fin 5) then .fin 5
      else .fin 10
  jsMul niceFraction (jsPow10 exponent)

/-- The emission loop `for (x = niceMin; x <= niceMax; x += tickSpacing)`
of `calculateTickValues`, as fuel-indexed recursion: each unit of fuel
pays for one guard evaluation. -/
def tickLoop (niceMax tickSpacing : JSNum) : ℕ → JSNum → List JSNum
  | 0, _ => []
  | fuel + 1, x =>
      if jsLeb x niceMax then
        x :: tickLoop niceMax tickSpacing fuel (jsAdd x tickSpacing)
      else []

/-- Fuel sufficient for the emission loop: with finite start, end and
positive finite spacing the loop evaluates its guard at most
`⌈(end-start)/spacing⌉ + 2` times; in every other case the JS loop
either fails its guard immediately (NaN or reversed comparisons — one
guard evaluation suffices) or does not terminate at all (infinite start
with finite spacing), which no claim exercises and a total embedding
cannot reproduce. -/
def tickFuel : JSNum → JSNum → JSNum → ℕ
  | .fin a, .fin b, .fin s => if 0 < s then (⌈(b - a) / s⌉).toNat + 2 else 1
  | _, _, _ => 1

/-- `calculateTickValues` (source lines 1922–1937). -/
def calculateTickValues (min max : JSNum) (tickCount : ℚ) : List JSNum :=
  let range := niceNum (jsSub max min) false
  let tickSpacing := niceNum (jsDiv range (.fin (tickCount - 1))) true
  let niceMin := jsMul (jsFloor (jsDiv min tickSpacing)) tickSpacing
  let niceMax := jsMul (jsCeil (jsDiv max tickSpacing)) tickSpacing
  tickLoop niceMax tickSpacing (tickFuel niceMin niceMax tickSpacing) niceMin

lemma intLog10_97 : Int.log 10 (97 : ℚ) = 1 := by
  rw [show (97 : ℚ) = ((97 : ℕ) : ℚ) by norm_num, Int.log_natCast]
  exact_mod_cast Nat.log_eq_of_pow_le_of_lt_pow (by norm_num) (by norm_num)

lemma intLog10_25 : Int.log 10 (25 : ℚ) = 1 := by
  rw [show (25 : ℚ) = ((25 : ℕ) : ℚ) by norm_num, Int.log_natCast]
  exact_mod_cast Nat.log_eq_of_pow_le_of_lt_pow (by norm_num) (by norm_num)

lemma natLog10_97 : Nat.log 10 97 = 1 :=
  Nat.log_eq_of_pow_le_of_lt_pow (by norm_num) (by norm_num)

lemma natLog10_25 : Nat.log 10 25 = 1 :=
  Nat.log_eq_of_pow_le_of_lt_pow (by norm_num) (by norm_num)

lemma ceil97d20 : (⌈(97 / 20 : ℚ)⌉ : ℤ) = 5 := by norm_num [Int.ceil_eq_iff]

/-- C3.  `calculateTickValues(0, 97, 5)` returns an arithmetic sequence
`k * s` (`k = 0..5`) with a single nice spacing `s` that resolves to 20
(one of the claim's sanctioned values 20/25); every element is a
multiple of `s`, the first element `0*s = 0` is ≤ 0 and the last element
`5*s = 100` is ≥ 97, so the sequence brackets [0, 97]. -/
theorem C3_tickValues :
    ∃ s : ℚ, (s = 20 ∨ s = 25) ∧
      calculateTickValues (.fin 0) (.fin 97) 5 =
        [.fin (0 * s), .fin (1 * s), .fin (2 * s), .fin (3 * s),
         .fin (4 * s), .fin (5 * s)] ∧
      0 * s ≤ 0 ∧ 97 ≤ 5 * s := by
  refine ⟨20, Or.inl rfl, ?_, by norm_num, by norm_num⟩
  norm_num [calculateTickValues, niceNum, jsSub, jsDiv, jsMul, jsFloor,
    jsCeil, jsFloorLog10, jsPow10, jsLeb, jsLtb, jsAdd, tickFuel, tickLoop,
    natLog10_97, natLog10_25, ceil97d20]

/-- C10.  For every finite `min` and every `tickCount ≥ 2`,
`calculateTickValues(min, min, tickCount)` terminates with the empty
sequence: internally the raw range and the tick spacing both come out as
`+0` (`log10(0) = -Infinity`, `10^-Infinity = 0`, `0/0 = NaN`, every
NaN threshold comparison false, `10 * 0 = 0`), the loop start
`floor(min/0) * 0` is `NaN`, and the emission guard `NaN <= NaN` is
false at once — for ANY amount of fuel — so the loop body never
executes despite the divisions by the zero spacing. -/
theorem C10_zeroWidthRange (m tc : ℚ) (htc : 2 ≤ tc) :
    calculateTickValues (.fin m) (.fin m) tc = [] ∧
    niceNum (jsSub (.fin m) (.fin m)) false = .fin 0 ∧
    niceNum (jsDiv (niceNum (jsSub (.fin m) (.fin m)) false)
      (.fin (tc - 1))) true = .fin 0 ∧
    jsMul (jsFloor (jsDiv (.fin m) (.fin 0))) (.fin 0) = .nan ∧
    (∀ fuel : ℕ, tickLoop
        (jsMul (jsCeil (jsDiv (.fin m) (.fin 0))) (.fin 0)) (.fin 0)
        fuel .nan = []) := by
  have htc1 : tc - 1 ≠ 0 := sub_ne_zero.mpr (by linarith)
  have hrange : niceNum (jsSub (.fin m) (.fin m)) false = .fin 0 := by
    norm_num [niceNum, jsSub, jsFloorLog10, jsPow10, jsDiv, jsMul,
      jsLeb, jsLtb]
  have hspacing : niceNum (jsDiv (niceNum (jsSub (.fin m) (.fin m)) false)
      (.fin (tc - 1))) true = .fin 0 := by
    rw [hrange]
    norm_num [niceNum, jsDiv, htc1, jsFloorLog10, jsPow10, jsMul,
      jsLeb, jsLtb]
  have hdivzero : jsMul (jsFloor (jsDiv (.fin m) (.fin 0))) (.fin 0) = .nan ∧
      jsMul (jsCeil (jsDiv (.fin m) (.fin 0))) (.fin 0) = .nan := by
    rcases lt_trichotomy m 0 with hm | hm | hm
    · constructor <;> simp [jsDiv, jsFloor, jsCeil, jsMul, hm.ne, hm.not_lt]
    · subst hm
      constructor <;> simp [jsDiv, jsFloor, jsCeil, jsMul]
    · constructor <;> simp [jsDiv, jsFloor, jsCeil, jsMul, hm.ne', hm]
  have hloop : ∀ (b s : JSNum) (fuel : ℕ), tickLoop b s fuel .nan = [] := by
    intro b s fuel
    cases fuel with
    | zero => rfl
    | succ n => simp [tickLoop, jsLeb]
  refine ⟨?_, hrange, hspacing, hdivzero.1, fun fuel => hloop _ _ fuel⟩
  simp only [calculateTickValues]
  rw [hspacing, hdivzero.1, hdivzero.2]
  exact hloop _ _ _

/-- Witness for C10 at concrete input `min = max = 5`, `tickCount = 5`. -/
theorem C10_zeroWidthRange_witness :
    (2 : ℚ) ≤ 5 ∧ calculateTickValues (.fin 5) (.fin 5) 5 = [] :=
  ⟨by norm_num, (C10_zeroWidthRange 5 5 (by norm_num)).1⟩

/-- Geometry-producing canvas context calls.  Styling calls (colors,
line widths, fonts, gradients, save/restore) are not recorded.  `arc`'s
last argument is the end angle in units of π; `fillText` records the
numeric label value and its position, `fillTextS` a string label. -/
inductive DrawCmd where
  | beginPath
  | moveTo (x y : ℚ)
  | lineTo (x y : ℚ)
  | stroke
  | fill
  | arc (x y r a0 a1pi : ℚ)
  | fillRect (x y w h : ℚ)
  | fillText (v x y : ℚ)
  | fillTextS (s : String) (x y : ℚ)
deriving DecidableEq

/-- `calculateTickInterval` (source lines 726–747): range/10, exact
order of magnitude, snap up to the first of {1,2,5,10}×magnitude
exceeding the rough size.  For range ≤ 0 the JS `Math.log10` chain is
NaN-valued and the caller's tick loop then runs zero times — modeled by
returning 0, which `qLoopFuel` maps to zero iterations. -/
def calculateTickInterval (min max : ℚ) : ℚ :=
  let range := max - min
  let roughTickSize := range / 10
  if 0 < roughTickSize then
    let orderOfMagnitude : ℚ := (10 : ℚ) ^ (Int.log 10 roughTickSize)
    if roughTickSize < 1 * orderOfMagnitude then 1 * orderOfMagnitude
    else if roughTickSize < 2 * orderOfMagnitude then 2 * orderOfMagnitude
    else if roughTickSize < 5 * orderOfMagnitude then 5 * orderOfMagnitude
    else if roughTickSize < 10 * orderOfMagnitude then 10 * orderOfMagnitude
    else 1 * orderOfMagnitude
  else 0

/-- Fuel for the rational for-loops of the renderers: with positive step
at most `⌈(end-start)/step⌉ + 2` guard evaluations occur; with
nonpositive step the source either iterates zero times (its value is
NaN there) or does not terminate (a pathological negative/zero step),
which a total embedding cannot reproduce — no claim exercises those. -/
def qLoopFuel (a b s : ℚ) : ℕ :=
  if 0 < s then (⌈(b - a) / s⌉).toNat + 2 else 0

/-- The emission loop of `drawTicks`
(`for (value = startTick; value <= endTick; value += interval)`). -/
def qLoop (emit : ℚ → List DrawCmd) (b s : ℚ) : ℕ → ℚ → List DrawCmd
  | 0, _ => []
  | fuel + 1, v => if v ≤ b then emit v ++ qLoop emit b s fuel (v + s) else []

/-- The `params` record passed to `drawTicks` by `renderAxes`. -/
structure TickParams where
  isXAxis : Bool
  min : ℚ
  max : ℚ
  zeroPos : ℚ
  scale : ℚ
  tickInterval : Option ℚ
  tickLength : ℚ
  tickLabelOffset : ℚ
  grid : Bool

/-- `drawTicks` (source lines 618–721): per tick value an optional
gridline, the tick mark across the zero axis, and a numeric label. -/
def drawTicks (W H : ℚ) (params : TickParams) : List DrawCmd :=
  let interval :=
    params.tickInterval.getD (calculateTickInterval params.min params.max)
  let startTick := (⌈params.min / interval⌉ : ℚ) * interval
  let endTick := (⌊params.max / interval⌋ : ℚ) * interval
  let emit := fun (value : ℚ) =>
    let pos := (value - params.min) * params.scale
    if params.isXAxis then
      let canvasPosition := pos
      (if params.grid then
        [.beginPath, .moveTo canvasPosition 0, .lineTo canvasPosition H,
         .stroke]
       else []) ++
      [.beginPath,
       .moveTo canvasPosition (params.zeroPos - params.tickLength),
       .lineTo canvasPosition (params.zeroPos + params.tickLength), .stroke,
       .fillText value canvasPosition (params.zeroPos + params.tickLabelOffset)]
    else
      let canvasPosition := H - pos
      (if params.grid then
        [.beginPath, .moveTo 0 canvasPosition, .lineTo W canvasPosition,
         .stroke]
       else []) ++
      [.beginPath,
       .moveTo (params.zeroPos - params.tickLength) canvasPosition,
       .lineTo (params.zeroPos + params.tickLength) canvasPosition, .stroke,
       .fillText value (params.zeroPos - params.tickLabelOffset) canvasPosition]
  qLoop emit endTick interval (qLoopFuel startTick endTick interval) startTick

/-- Axis/grid options read by `renderAxes`. -/
structure AxisOpts where
  tickIntervalX : Option ℚ
  tickIntervalY : Option ℚ
  gridShow : Bool

/-- `renderAxes` (source lines 371–460), geometry output, for a plot
whose `bounds` are present with `normalizeBounds` off (with
normalization on, the source first replaces the bounds wholesale by
`computeBounds()` and the range check applies to those).  A zero range
returns `[]` before any geometry and before the scale division, as in
the source's early return, and the embedding is total, so nothing can
throw. -/
def renderAxes (W H : ℚ) (bounds : Bounds) (opts : AxisOpts) : List DrawCmd :=
  let range : Pt := ⟨bounds.x.max - bounds.x.min, bounds.y.max - bounds.y.min⟩
  if range.x = 0 ∨ range.y = 0 then []
  else
    let scale : Pt := ⟨W / range.x, H / range.y⟩
    let zeroPosition : Pt := ⟨(0 - bounds.x.min) * scale.x,
                              H - (0 - bounds.y.min) * scale.y⟩
    drawTicks W H ⟨true, bounds.x.min, bounds.x.max, zeroPosition.y, scale.x,
      opts.tickIntervalX, 5, 8, opts.gridShow⟩ ++
    drawTicks W H ⟨false, bounds.y.min, bounds.y.max, zeroPosition.x, scale.y,
      opts.tickIntervalY, 5, 8, opts.gridShow⟩ ++
    (if 0 ≤ zeroPosition.y ∧ zeroPosition.y ≤ H then
      [.beginPath, .moveTo 0 zeroPosition.y, .lineTo W zeroPosition.y,
       .stroke]
     else []) ++
    (if 0 ≤ zeroPosition.x ∧ zeroPosition.x ≤ W then
      [.beginPath, .moveTo zeroPosition.x 0, .lineTo zeroPosition.x H,
       .stroke]
     else [])

/-- The `normalizeBounds` per-buffer bounds expansion inside `drawBuffer`
(source lines 785–795), kept with its asymmetries (x compares against
`min + null` but stores `x - null`; y stores the raw `point.y`). -/
def normalizeExpand (nullPosition : Pt) (data : List Pt) (bounds : Bounds) :
    Bounds :=
  data.foldl (fun b point =>
    let b1 := if point.x < b.x.min + nullPosition.x then
        { b with x := { b.x with min := point.x - nullPosition.x } } else b
    let b2 := if point.x > b1.x.max + nullPosition.x then
        { b1 with x := { b1.x with max := point.x - nullPosition.x } } else b1
    let b3 := if point.y < b2.y.min + nullPosition.y then
        { b2 with y := { b2.y with min := point.y } } else b2
    if point.y > b3.y.max + nullPosition.y then
        { b3 with y := { b3.y with max := point.y } } else b3) bounds

/-- The function-curve sampling loop of `drawBuffer` (source lines
972–1003): march x across the bounds in `step` increments, skip samples
out of bounds by one scale-unit of slack, `moveTo` only when x equals
the loop's start value, `lineTo` otherwise. -/
def lineFuncLoop (line : BufferLine) (bounds : Bounds) (nullPosition : Pt)
    (scale : Pt) (H xStart xEnd step : ℚ) : ℕ → ℚ → List DrawCmd
  | 0, _ => []
  | fuel + 1, x =>
      if x < xEnd then
        (let y := line.func x
         let adjusted : Pt := ⟨x - nullPosition.x, y - nullPosition.y⟩
         if adjusted.x < bounds.x.min - scale.x ∨
             adjusted.x > bounds.x.max + scale.x then []
         else if adjusted.y < bounds.y.min - scale.y ∨
             adjusted.y > bounds.y.max + scale.y then []
         else if x = xStart then
           [DrawCmd.moveTo ((adjusted.x - bounds.x.min) * scale.x)
             (H - (adjusted.y - bounds.y.min) * scale.y)]
         else
           [DrawCmd.lineTo ((adjusted.x - bounds.x.min) * scale.x)
             (H - (adjusted.y - bounds.y.min) * scale.y)]) ++
        lineFuncLoop line bounds nullPosition scale H xStart xEnd step fuel
          (x + step)
      else []

/-- The parametric-curve sampling loop of `drawBuffer` (source lines
1056–1092): march t, skip out-of-slack samples without consuming the
`firstPoint` flag, `moveTo` on the first in-bounds sample. -/
def parametricLoop (par : ParametricDef) (bounds : Bounds)
    (nullPosition : Pt) (scale : Pt) (H tMax dt : ℚ) :
    ℕ → ℚ → Bool → List DrawCmd
  | 0, _, _ => []
  | fuel + 1, t, firstPoint =>
      if t ≤ tMax then
        let point := par.func t
        let adjusted : Pt := ⟨point.x - nullPosition.x,
                              point.y - nullPosition.y⟩
        if adjusted.x < bounds.x.min - scale.x ∨
            adjusted.x > bounds.x.max + scale.x ∨
            adjusted.y < bounds.y.min - scale.y ∨
            adjusted.y > bounds.y.max + scale.y then
          parametricLoop par bounds nullPosition scale H tMax dt fuel
            (t + dt) firstPoint
        else
          (if firstPoint then
            [DrawCmd.moveTo ((adjusted.x - bounds.x.min) * scale.x)
              (H - (adjusted.y - bounds.y.min) * scale.y)]
          else
            [DrawCmd.lineTo ((adjusted.x - bounds.x.min) * scale.x)
              (H - (adjusted.y - bounds.y.min) * scale.y)]) ++
          parametricLoop par bounds nullPosition scale H tMax dt fuel
            (t + dt) false
      else []

/-- `drawBuffer` (source lines 752–1098), geometry output: the
visibility guard, the optional `normalizeBounds` expansion, the
zero-range early return, then primary `data` by `type` (the initial
`beginPath`/`moveTo` of the first sample precedes the type branch in the
source), then `lines`, `points` and `parametrics`.  The source guard
`range.x !== Infinity || range.y !== Infinity` always holds for finite
bounds, so `scale` is always the quotient.  Total: nothing throws; a
zero range produces `[]` with no division evaluated. -/
def drawBuffer (W H : ℚ) (plotBounds : Bounds) (normalizeBounds : Bool)
    (localVisible : Option Bool) (buffer : Buffer) : List DrawCmd :=
  if buffer.visible = some false ∨ localVisible = some false then []
  else
    let data := buffer.data
    let lines := buffer.lines.getD []
    let points := buffer.points.getD []
    let parametrics := buffer.parametrics.getD []
    let nullPosition : Pt := ⟨((buffer.null).getD ⟨0, 0⟩).x,
                              ((buffer.null).getD ⟨0, 0⟩).y⟩
    let bounds := if normalizeBounds then
        normalizeExpand nullPosition data plotBounds
      else plotBounds
    let range : Pt := ⟨bounds.x.max - bounds.x.min,
                       bounds.y.max - bounds.y.min⟩
    if range.x = 0 ∨ range.y = 0 then []
    else
      let scale : Pt := ⟨W / range.x, H / range.y⟩
      let trX := fun (p : Pt) => (p.x - nullPosition.x - bounds.x.min) * scale.x
      let trY := fun (p : Pt) => H - (p.y - nullPosition.y - bounds.y.min) * scale.y
      let primary : List DrawCmd :=
        if data.length > 0 then
          [.beginPath,
           .moveTo (trX (data.getD 0 ⟨0, 0⟩)) (trY (data.getD 0 ⟨0, 0⟩))] ++
          (match buffer.type with
           | some .scatter =>
               data.flatMap (fun point =>
                 [.beginPath,
                  .arc (trX point) (trY point) (buffer.pointSize.getD 2) 0
                    (2 * scale.x),
                  .fill])
           | some .area =>
               let xValues := data.map trX
               let yValues := data.map trY
               let zeroPositionY :=
                 H - (nullPosition.y - bounds.y.min) * scale.y
               [.beginPath,
                .moveTo (xValues.getD 0 0) (yValues.getD 0 0)] ++
               ((data.drop 1).map (fun p => DrawCmd.lineTo (trX p) (trY p))) ++
               [.lineTo (xValues.getD (xValues.length - 1) 0) zeroPositionY,
                .lineTo (xValues.getD 0 0) zeroPositionY,
                .fill,
                .beginPath,
                .moveTo (xValues.getD 0 0) zeroPositionY] ++
               (data.map (fun p => DrawCmd.lineTo (trX p) (trY p))) ++
               [.stroke]
           | some .bar =>
               let sortedData := data.mergeSort (fun a b => decide (a.x ≤ b.x))
               let barSpacing := if sortedData.length > 1 then
                   ((sortedData.getD 1 ⟨0, 0⟩).x
                     - (sortedData.getD 0 ⟨0, 0⟩).x) * scale.x
                 else W / (data.length : ℚ)
               let barWidth := barSpacing * (buffer.barWidthFactor.getD (4 / 5))
               let barGap := buffer.barGap.getD 1
               let zeroPositionY :=
                 H - (0 - bounds.y.min + nullPosition.y) * scale.y
               sortedData.flatMap (fun p =>
                 let xValue := (p.x - nullPosition.x - bounds.x.min) * scale.x
                 let yValue := (p.y - nullPosition.y - bounds.y.min) * scale.y
                 let barHeight := |H - zeroPositionY - yValue|
                 let barX := xValue - barWidth / 2
                 let barY := if p.y ≥ 0 then zeroPositionY - barHeight
                   else zeroPositionY
                 [.fillRect barX barY (barWidth - barGap) barHeight])
           | _ =>
               ((data.drop 1).map (fun p => DrawCmd.lineTo (trX p) (trY p))) ++
               [.stroke])
        else []
      let linesCmds : List DrawCmd :=
        lines.flatMap (fun line =>
          let step := (line.stepScalar.getD 1) / scale.x
          let xStart := bounds.x.min + nullPosition.x
          let xEnd := bounds.x.max + nullPosition.x
          [.beginPath] ++
          lineFuncLoop line bounds nullPosition scale H xStart xEnd step
            (qLoopFuel xStart xEnd step) xStart ++
          [.stroke])
      let pointsCmds : List DrawCmd :=
        points.flatMap (fun point =>
          [.beginPath,
           .arc (trX ⟨point.x, point.y⟩) (trY ⟨point.x, point.y⟩)
             (point.size.getD 2) 0 2,
           .fill] ++
          (match point.label with
           | some lbl =>
               [.fillTextS lbl
                 (trX ⟨point.x, point.y⟩ + point.labelOffsetX.getD 5)
                 (trY ⟨point.x, point.y⟩ + point.labelOffsetY.getD (-5))]
           | none => []))
      let parametricsCmds : List DrawCmd :=
        parametrics.flatMap (fun par =>
          let tMin := par.tMin.getD 0
          let tMax := par.tMax.getD 10
          let steps := par.steps.getD 1000
          let dt := (tMax - tMin) / steps
          [.beginPath] ++
          parametricLoop par bounds nullPosition scale H tMax dt
            (qLoopFuel tMin tMax dt) tMin true ++
          [.stroke])
      primary ++ linesCmds ++ pointsCmds ++ parametricsCmds

/-- C7.  For every plot state whose current (checked) bounds have x-range
or y-range exactly zero, the render pass is skipped entirely:
`renderAxes` and `drawBuffer` each return early right after the range
check, producing no axis, grid, tick, or series geometry, and — the
embedded functions being total — raising nothing. -/
theorem C7_zeroRangeSkipsRender (W H : ℚ) (bounds : Bounds)
    (opts : AxisOpts) (localVisible : Option Bool) (buffer : Buffer)
    (h : bounds.x.max - bounds.x.min = 0 ∨ bounds.y.max - bounds.y.min = 0) :
    renderAxes W H bounds opts = [] ∧
    drawBuffer W H bounds false localVisible buffer = [] := by
  constructor
  · simp only [renderAxes]
    rw [if_pos h]
  · simp only [drawBuffer, Bool.false_eq_true, if_false]
    by_cases hv : buffer.visible = some false ∨ localVisible = some false
    · rw [if_pos hv]
    · rw [if_neg hv, if_pos h]

/-- A demo series used by the C7 witness: data, a sampled line, a point
overlay and a parametric curve, all of which must be suppressed. -/
def witnessBuffer : Buffer :=
  ⟨[⟨0, 0⟩, ⟨1, 1⟩], some .line, none, none, none,
   some [⟨fun x => x, none⟩],
   some [⟨1, 1, none, none, none, none⟩],
   some [⟨fun t => ⟨t, t⟩, none, none, none⟩],
   none, none, none⟩

/-- Witness for C7 at concrete input: zero x-range bounds x:[2,2],
y:[0,5] on a 100×50 canvas with a fully-populated series. -/
theorem C7_zeroRangeSkipsRender_witness :
    ((2 : ℚ) - 2 = 0 ∨ (5 : ℚ) - 0 = 0) ∧
    renderAxes 100 50 ⟨⟨2, 2⟩, ⟨0, 5⟩⟩ ⟨none, none, true⟩ = [] ∧
    drawBuffer 100 50 ⟨⟨2, 2⟩, ⟨0, 5⟩⟩ false none witnessBuffer = [] :=
  ⟨by norm_num,
   C7_zeroRangeSkipsRender 100 50 ⟨⟨2, 2⟩, ⟨0, 5⟩⟩ ⟨none, none, true⟩ none
     witnessBuffer (by norm_num)⟩
